import Mathlib

/-!
Shallow embedding of the Monkey-style interpreter front-end of this
repository: the lexer (src/lexer/lexer.rs, src/lexer/token.rs), the
Pratt parser (src/parser/parser.rs), the AST and its printer
(src/ast/ast.rs), and the tree-walking evaluator
(src/eval/eval.rs, src/eval/object.rs).

Modelling conventions:
- Rust `i64` values are modelled as `Int` with explicit `i64` panic
  semantics of the unoptimized (dev/test) profile the repository is
  built and tested under: overflowing `+`, `-`, `*` and unary `-` panic
  (release builds would wrap); division uses `Int.tdiv` (truncation
  toward zero, as Rust `/`) and panics on a zero divisor and on
  `i64::MIN / -1`, as Rust does in every profile.
- A Rust panic (`todo!()`, `Option::unwrap` on `None`, division by zero)
  is the explicit result `EvalRes.panics`.
- The lexer state is the list of not yet consumed characters of the
  input; the Unicode character classes used by the Rust lexer
  (`char::is_whitespace`, `char::is_alphabetic`, `char::is_alphanumeric`)
  are modelled by their ASCII restrictions.
- The parser, whose Rust loops can diverge, takes a fuel argument;
  a result of `none` means the fuel was exhausted, so
  `(forall fuel, ... = none)` states that the Rust code loops forever.
-/

/-- Token kinds of the lexer (src/lexer/token.rs, `enum TokenType`).  The
Rust variants `Let`, `True`, `False`, `If`, `Else`, `Return` are Lean
keywords and get a `K` suffix. -/
inductive TokenType where
  | illegal | eof | ident | int
  | assign | plus | minus | bang | asterisk | slash | lt | gt
  | comma | semicolon | lparen | rparen | lbrace | rbrace
  | function | letK | trueK | falseK | elseK | ifK | returnK
  | eq | notEq
  | notSet
  deriving DecidableEq, Repr

/-- A lexical token (src/lexer/token.rs, `struct Token`). -/
structure Token where
  tokenType : TokenType
  literal : String
  deriving DecidableEq, Repr

/-- The `Default` value of `Token` (Rust `Token::default()`):
`NotSet` kind with an empty literal. -/
def defaultToken : Token := ⟨TokenType.notSet, ""⟩

/-- The Rust variant name of a token kind, as produced by the `{:?}`
debug formatting used in parser diagnostics. -/
def TokenType.debugName : TokenType → String
  | .illegal => "Illegal" | .eof => "Eof" | .ident => "Ident" | .int => "Int"
  | .assign => "Assign" | .plus => "Plus" | .minus => "Minus" | .bang => "Bang"
  | .asterisk => "Asterisk" | .slash => "Slash" | .lt => "Lt" | .gt => "Gt"
  | .comma => "Comma" | .semicolon => "Semicolon" | .lparen => "LParen"
  | .rparen => "RParen" | .lbrace => "LBrace" | .rbrace => "RBrace"
  | .function => "Function" | .letK => "Let" | .trueK => "True"
  | .falseK => "False" | .elseK => "Else" | .ifK => "If" | .returnK => "Return"
  | .eq => "Eq" | .notEq => "NotEq" | .notSet => "NotSet"

/-- Whitespace skipped by the lexer.  Rust uses `char::is_whitespace`
(the Unicode `White_Space` property); this is its ASCII restriction:
space and U+0009..U+000D (tab, LF, vertical tab, form feed, CR).  It
agrees with the Rust predicate on every ASCII character; lexer theorems
quantifying over characters are therefore stated for ASCII inputs. -/
def isWhitespaceChar (c : Char) : Bool :=
  c == ' ' || ('\x09' ≤ c && c ≤ '\x0d')

/-- ASCII restriction of Rust `char::is_alphabetic` (Unicode
`Alphabetic`), used for the start of an identifier; the two agree on
every ASCII character, so lexer theorems quantifying over characters
are stated for ASCII inputs. -/
def isAlphabeticChar (c : Char) : Bool :=
  ('a' ≤ c && c ≤ 'z') || ('A' ≤ c && c ≤ 'Z')

/-- Rust `char::is_ascii_digit`, used for the start of a number. -/
def isAsciiDigitChar (c : Char) : Bool :=
  '0' ≤ c && c ≤ '9'

/-- Continuation character of an identifier: Rust
`ch.is_alphanumeric() || ch == '_'` (ASCII restriction). -/
def isIdentContinueChar (c : Char) : Bool :=
  isAlphabeticChar c || isAsciiDigitChar c || c == '_'

/-- Keyword table of the lexer (src/lexer/lexer.rs, `lookup_identifier`). -/
def lookupIdentifier (ident : String) : TokenType :=
  if ident = "fn" then .function
  else if ident = "let" then .letK
  else if ident = "true" then .trueK
  else if ident = "false" then .falseK
  else if ident = "else" then .elseK
  else if ident = "if" then .ifK
  else if ident = "return" then .returnK
  else .ident

/-- One step of the lexer (src/lexer/lexer.rs, `next_token`): skip
whitespace, then scan one token, returning it with the remaining input.
The `Illegal` arm carries the fixed literal "Illegal", exactly as the
source does (`Token::new(TokenType::Illegal, "Illegal")`). -/
def nextToken (input : List Char) : Token × List Char :=
  match input.dropWhile isWhitespaceChar with
  | [] => (⟨.eof, ""⟩, [])
  | c :: rest =>
    if c == '=' then
      match rest with
      | '=' :: rest2 => (⟨.eq, "=="⟩, rest2)
      | _ => (⟨.assign, "="⟩, rest)
    else if c == '\x7b' then (⟨.lbrace, "\x7b"⟩, rest)
    else if c == '\x7d' then (⟨.rbrace, "\x7d"⟩, rest)
    else if c == '+' then (⟨.plus, "+"⟩, rest)
    else if c == '-' then (⟨.minus, "-"⟩, rest)
    else if c == '<' then (⟨.lt, "<"⟩, rest)
    else if c == '>' then (⟨.gt, ">"⟩, rest)
    else if c == '!' then
      match rest with
      | '=' :: rest2 => (⟨.notEq, "!="⟩, rest2)
      | _ => (⟨.bang, "!"⟩, rest)
    else if c == '*' then (⟨.asterisk, "*"⟩, rest)
    else if c == '/' then (⟨.slash, "/"⟩, rest)
    else if c == ',' then (⟨.comma, ","⟩, rest)
    else if c == ';' then (⟨.semicolon, ";"⟩, rest)
    else if c == '(' then (⟨.lparen, "("⟩, rest)
    else if c == ')' then (⟨.rparen, ")"⟩, rest)
    else if isAlphabeticChar c || c == '_' then
      let lit : String := ⟨c :: rest.takeWhile isIdentContinueChar⟩
      (⟨lookupIdentifier lit, lit⟩, rest.dropWhile isIdentContinueChar)
    else if isAsciiDigitChar c then
      let lit : String := ⟨c :: rest.takeWhile isAsciiDigitChar⟩
      (⟨.int, lit⟩, rest.dropWhile isAsciiDigitChar)
    else (⟨.illegal, "Illegal"⟩, rest)

/-- Modelled from the spec: the module src/lexer/precedence.rs is declared
by src/lexer/mod.rs (`pub mod precedence`) but the file is not present
under src/.  The spec gives the total order
`Lowest < Equals < LessGreater < Sum < Product < Prefix < Call`; the
`Prefix` variant is named `prefixOp` here. -/
inductive Precedence where
  | lowest | equals | lessGreater | sum | product | prefixOp | call
  deriving DecidableEq, Repr

/-- Numeric rank realizing the spec's total order on `Precedence`. -/
def Precedence.rank : Precedence → Nat
  | .lowest => 1 | .equals => 2 | .lessGreater => 3 | .sum => 4
  | .product => 5 | .prefixOp => 6 | .call => 7

/-- The strict order `<` on `Precedence` used by the parser loop. -/
def precLt (a b : Precedence) : Bool := a.rank < b.rank

/-- An identifier node (src/ast/ast.rs, `struct Identifier`). -/
structure Identifier where
  token : Token
  value : String
  deriving DecidableEq, Repr

mutual
/-- Expressions of the AST (src/ast/ast.rs, `enum Expression`).  The Rust
`Prefix`/`Infix`/`None`/`Identifier` variants are named `prefixE`,
`infixE`, `noneE`, `identifierE`; field order follows the source
(note `Infix` declares `right` before `left`). -/
inductive Expression where
  | integer (token : Token) (value : Int)
  | boolean (token : Token) (value : Bool)
  | prefixE (token : Token) (operator : String) (right : Option Expression)
  | infixE (token : Token) (operator : String) (right : Expression) (left : Expression)
  | ifE (token : Token) (condition : Expression) (consequence : Stmt) (alternative : Option Stmt)
  | function (token : Token) (parameters : List Identifier) (body : Stmt)
  | call (token : Token) (fnExpr : Expression) (arguments : Option (List Expression))
  | identifierE (ident : Identifier)
  | noneE
/-- Statements of the AST (src/ast/ast.rs, `enum Statement`), named `Stmt`
with variants `letS`, `returnS`, `block`, `expression`. -/
inductive Stmt where
  | letS (token : Token) (name : Identifier) (value : Expression)
  | returnS (token : Token) (value : Expression)
  | block (token : Token) (statements : List Stmt)
  | expression (value : Expression)
end

/-- A parsed program (src/ast/ast.rs, `struct Program`). -/
structure Program where
  statements : List Stmt

mutual
/-- Printer of expressions (src/ast/ast.rs, `Expression::token_literal`;
the `Display` instance of `Expression` delegates to it). -/
def exprTokenLiteral : Expression → String
  | .integer token _ => token.literal
  | .prefixE _ operator right =>
    match right with
    | some e => operator ++ exprTokenLiteral e
    | none => "(" ++ operator ++ "None" ++ ")"
  | .identifierE ident => ident.value
  | .noneE => ""
  | .infixE _ operator right left =>
    "(" ++ exprTokenLiteral left ++ " " ++ operator ++ " " ++ exprTokenLiteral right ++ ")"
  | .ifE _ condition consequence alternative =>
    match alternative with
    | some x =>
      "if " ++ exprTokenLiteral condition ++ " " ++ displayStmt consequence
        ++ " else " ++ displayStmt x
    | none =>
      "if " ++ exprTokenLiteral condition ++ " \x7b " ++ displayStmt consequence ++ " \x7d"
  | .function _ parameters body =>
    "fn (" ++ String.intercalate " , " (parameters.map (fun p => p.token.literal))
      ++ ") \x7b " ++ displayStmt body ++ " \x7d"
  | .call _ fnExpr arguments =>
    exprTokenLiteral fnExpr ++ "("
      ++ (match arguments with
          | some args => String.intercalate ", " (displayExprList args)
          | none => "")
      ++ ")"
  | .boolean _ value => toString value
/-- Printer of statements (src/ast/ast.rs, `impl Display for Statement`). -/
def displayStmt : Stmt → String
  | .letS token name value =>
    token.literal ++ " " ++ name.token.literal ++ " = " ++ exprTokenLiteral value ++ ";"
  | .returnS _ value => "return " ++ exprTokenLiteral value ++ ";"
  | .expression e => exprTokenLiteral e
  | .block _ statements => displayStmtList statements
/-- Printer of call-argument lists, one rendered argument per element. -/
def displayExprList : List Expression → List String
  | [] => []
  | e :: rest => exprTokenLiteral e :: displayExprList rest
/-- Concatenated rendering of the statements of a block. -/
def displayStmtList : List Stmt → String
  | [] => ""
  | s :: rest => displayStmt s ++ displayStmtList rest
end

/-- Rendering of a whole program, one rendered statement per element. -/
def printProgram (p : Program) : List String := p.statements.map displayStmt

/-- Runtime values (src/eval/object.rs, `enum Object`).  `ReturnValue`
wraps `Box<Option<Object>>` in the source, hence `Option Object` here. -/
inductive Object where
  | int (i : Int)
  | bool (b : Bool)
  | null
  | returnValue (o : Option Object)

/-- Rendering of a runtime value (src/eval/object.rs, `impl Display for
Object`).  The `ReturnValue` arm calls `Option::unwrap`, which panics on
`None`; that panic is modelled by the result `none`. -/
def displayObject : Object → Option String
  | .int i => some (toString i)
  | .bool b => some (toString b)
  | .null => some "nil"
  | .returnValue o =>
    match o with
    | none => none
    | some x => displayObject x

/-- Outcome of one evaluator call: a Rust panic, the absent result
`None`, or a value `Some o`. -/
inductive EvalRes where
  | panics
  | noRes
  | res (o : Object)

/-- The smallest `i64` value, `-2^63`. -/
def i64Min : Int := -9223372036854775808

/-- The largest `i64` value, `2^63 - 1`. -/
def i64Max : Int := 9223372036854775807

/-- Whether an integer fits in `i64`.  A Rust `i64` operation whose
mathematical result falls outside this range panics in the unoptimized
(dev/test) profile the repository is built and tested under. -/
def inI64Range (v : Int) : Bool :=
  i64Min ≤ v && v ≤ i64Max

/-- Truthiness of a value (src/eval/eval.rs, `is_truthy`). -/
def isTruthy : Object → Bool
  | .int _ => true
  | .bool b => b
  | .null => false
  | .returnValue _ => true

/-- The `!` prefix rule (src/eval/eval.rs,
`eval_bang_operator_expression`). -/
def evalBangOperatorExpression : Object → Object
  | .bool r => .bool (!r)
  | .int _ => .bool false
  | .null => .bool true
  | .returnValue _ => .null

/-- The `-` prefix rule (src/eval/eval.rs,
`eval_minus_prefix_operator_expression`).  Rust `-i` on `i64` panics at
`i64::MIN` in the unoptimized (dev/test) profile ("attempt to negate
with overflow"); any non-integer operand is `None`. -/
def evalMinusPrefixOperatorExpression : Object → EvalRes
  | .int i => if i = i64Min then .panics else .res (.int (-i))
  | _ => .noRes

/-- Dispatch of prefix operators (src/eval/eval.rs,
`eval_prefix_expression`). -/
def evalPrefixExpression (operator : String) (right : Object) : EvalRes :=
  if operator = "-" then evalMinusPrefixOperatorExpression right
  else if operator = "!" then .res (evalBangOperatorExpression right)
  else .noRes

/-- Integer infix operations (src/eval/eval.rs,
`eval_integer_infix_operation`), with Rust `i64` panic semantics of the
unoptimized (dev/test) profile the repository's tests run under:
overflowing `+`, `-`, `*` panic (release builds wrap instead); `l / r`
panics on a zero divisor in every profile and on the overflowing
`i64::MIN / -1` in every profile, and otherwise truncates toward zero
(`Int.tdiv`). -/
def evalIntegerInfixOperation (operator : String) (l r : Int) : EvalRes :=
  if operator = "+" then
    if inI64Range (l + r) then .res (.int (l + r)) else .panics
  else if operator = "-" then
    if inI64Range (l - r) then .res (.int (l - r)) else .panics
  else if operator = "*" then
    if inI64Range (l * r) then .res (.int (l * r)) else .panics
  else if operator = "/" then
    if r = 0 ∨ (l = i64Min ∧ r = -1) then .panics
    else .res (.int (Int.tdiv l r))
  else if operator = "<" then .res (.bool (decide (l < r)))
  else if operator = ">" then .res (.bool (decide (r < l)))
  else if operator = "!=" then .res (.bool (decide (l ≠ r)))
  else if operator = "==" then .res (.bool (decide (l = r)))
  else .noRes

/-- Infix dispatch (src/eval/eval.rs, `eval_infix_expression`): only an
`(Int, Int)` pair of operands is defined, anything else is `None`. -/
def evalInfixExpression (operator : String) (lt rt : Object) : EvalRes :=
  match lt, rt with
  | .int l, .int r => evalIntegerInfixOperation operator l r
  | _, _ => .noRes

mutual
/-- The evaluator (src/eval/eval.rs, `eval`).  The Rust function takes a
`Statement` and re-wraps sub-expressions as
`eval(Statement::Expression(e))`; those recursive calls are split into
`evalExpr` so that the recursion is structural.  The `Let`, `Function`,
`Call`, `Identifier` and `Expression::None` arms are `Some(todo!())` in
the source, i.e. they panic.  `eval_if_expression` is inlined into the
`If` arm. -/
def eval : Stmt → EvalRes
  | .letS _ _ _ => .panics
  | .returnS _ value =>
    match evalExpr value with
    | .panics => .panics
    | .noRes => .res (.returnValue none)
    | .res o => .res (.returnValue (some o))
  | .block _ statements => evalBlockStatement statements .null
  | .expression e => evalExpr e
/-- Expression evaluation: the `Statement::Expression` arm of `eval`
(src/eval/eval.rs).  In `Prefix`, `right.unwrap()` panics when the
operand is absent.  `eval_if_expression` (src/eval/eval.rs) is the `ifE`
arm: a truthy condition evaluates the consequence, otherwise the
alternative when present, and `None` results otherwise. -/
def evalExpr : Expression → EvalRes
  | .integer _ value => .res (.int value)
  | .boolean _ value => .res (.bool value)
  | .prefixE _ operator right =>
    match right with
    | none => .panics
    | some r =>
      match evalExpr r with
      | .panics => .panics
      | .noRes => .noRes
      | .res rt => evalPrefixExpression operator rt
  | .infixE _ operator right left =>
    match evalExpr left with
    | .panics => .panics
    | .noRes => .noRes
    | .res lt =>
      match evalExpr right with
      | .panics => .panics
      | .noRes => .noRes
      | .res rt => evalInfixExpression operator lt rt
  | .ifE _ condition consequence alternative =>
    match evalExpr condition with
    | .panics => .panics
    | .noRes => .noRes
    | .res c =>
      if isTruthy c then eval consequence
      else
        match alternative with
        | some alt => eval alt
        | none => .noRes
  | .function _ _ _ => .panics
  | .call _ _ _ => .panics
  | .identifierE _ => .panics
  | .noneE => .panics
/-- Block evaluation (src/eval/eval.rs, `eval_block_statement`): the
accumulator starts as `Null`; a `ReturnValue` stops the block and is
yielded unchanged; a plain value replaces the accumulator; an absent
result leaves it untouched (`None => continue`). -/
def evalBlockStatement : List Stmt → Object → EvalRes
  | [], result => .res result
  | stmt :: rest, result =>
    match eval stmt with
    | .panics => .panics
    | .res (.returnValue v) => .res (.returnValue v)
    | .res o => evalBlockStatement rest o
    | .noRes => evalBlockStatement rest result
end

/-- Loop of `eval_program` (src/eval/eval.rs): `result` starts as
`Some(Null)`; a `ReturnValue` is returned immediately and unchanged;
otherwise `result` is overwritten by the statement's outcome, `None`
included; the final value is `result.unwrap_or(Null)`. -/
def evalProgramLoop : List Stmt → Option Object → EvalRes
  | [], result => .res (result.getD .null)
  | stmt :: rest, _result =>
    match eval stmt with
    | .panics => .panics
    | .res (.returnValue v) => .res (.returnValue v)
    | .res o => evalProgramLoop rest (some o)
    | .noRes => evalProgramLoop rest none

/-- Whole-program evaluation (src/eval/eval.rs, `eval_program`). -/
def evalProgram (program : Program) : EvalRes :=
  evalProgramLoop program.statements (some .null)

/-- Parser state (src/parser/parser.rs, `struct Parser`): the owned lexer
(its remaining input), the two-token lookahead window and the collected
diagnostics. -/
structure PState where
  lexer : List Char
  currToken : Token
  peekToken : Token
  errors : List String
  deriving DecidableEq, Repr

/-- Advance the lookahead window (src/parser/parser.rs, `next_token`). -/
def nextTokenP (p : PState) : PState :=
  let r := nextToken p.lexer
  { p with currToken := p.peekToken, peekToken := r.1, lexer := r.2 }

/-- Construct a parser over an input string (src/parser/parser.rs,
`Parser::new`): default tokens, then two advances to prime the window. -/
def newParser (input : String) : PState :=
  nextTokenP (nextTokenP ⟨input.data, defaultToken, defaultToken, []⟩)

/-- Kind test on the current token (src/parser/parser.rs,
`curr_token_is`). -/
def currTokenIs (p : PState) (t : TokenType) : Bool :=
  p.currToken.tokenType == t

/-- Kind test on the peek token (src/parser/parser.rs, `peek_token_is`). -/
def peekTokenIs (p : PState) (t : TokenType) : Bool :=
  p.peekToken.tokenType == t

/-- Record an expected-token diagnostic (src/parser/parser.rs,
`peek_error`). -/
def peekError (p : PState) (t : TokenType) : PState :=
  { p with errors := p.errors ++
      ["expected next token to be " ++ t.debugName ++ ", got "
        ++ p.peekToken.tokenType.debugName ++ " instead"] }

/-- Conditional advance (src/parser/parser.rs, `expect_peek`): advance on
a kind match, otherwise record a diagnostic. -/
def expectPeek (p : PState) (t : TokenType) : Bool × PState :=
  if peekTokenIs p t then (true, nextTokenP p) else (false, peekError p t)

/-- Binding power of a token kind (src/parser/parser.rs,
`get_precedence_of_token`). -/
def getPrecedenceOfToken : TokenType → Precedence
  | .eq | .notEq => .equals
  | .lt | .gt => .lessGreater
  | .plus | .minus => .sum
  | .asterisk | .slash => .product
  | .lparen => .call
  | _ => .lowest

/-- Binding power of the peek token (src/parser/parser.rs,
`peek_precedence`). -/
def peekPrecedence (p : PState) : Precedence :=
  getPrecedenceOfToken p.peekToken.tokenType

/-- Binding power of the current token (src/parser/parser.rs,
`curr_precedence`). -/
def currPrecedence (p : PState) : Precedence :=
  getPrecedenceOfToken p.currToken.tokenType

/-- Identifier expression rule (src/parser/parser.rs,
`parse_identifier`). -/
def parseIdentifierE (p : PState) : Expression :=
  .identifierE ⟨p.currToken, p.currToken.literal⟩

/-- Boolean literal rule (src/parser/parser.rs,
`parse_boolean_expression`). -/
def parseBooleanExpression (p : PState) : Option Expression :=
  some (.boolean p.currToken (currTokenIs p .trueK))

/-- Model of Rust `str::parse::<i64>`: an optional sign followed by a
nonempty digit run, rejected outside the i64 range. -/
def parseI64 (s : String) : Option Int :=
  let chars := s.data
  let signDigits : Int × List Char :=
    match chars with
    | '-' :: rest => (-1, rest)
    | '+' :: rest => (1, rest)
    | _ => (1, chars)
  if signDigits.2.isEmpty || !(signDigits.2.all isAsciiDigitChar) then none
  else
    let v : Int := signDigits.1 *
      (signDigits.2.foldl (fun acc c => acc * 10 + (c.toNat - 48)) 0 : Nat)
    if -9223372036854775808 ≤ v ∧ v ≤ 9223372036854775807 then some v else none

/-- Integer literal rule (src/parser/parser.rs, `parse_integer_literal`):
a failed i64 parse records a diagnostic and yields no expression. -/
def parseIntegerLiteral (p : PState) : Option Expression × PState :=
  match parseI64 p.currToken.literal with
  | some v => (some (.integer p.currToken v), p)
  | none =>
    (none, { p with errors := p.errors ++
        ["Could not parse " ++ p.currToken.literal ++ " as integer"] })

mutual
/-- Loop body of `parse_program` (src/parser/parser.rs): until the
current token is `Eof`, parse one statement, append it when produced, and
advance one token.  The accumulated statements are threaded as `acc`. -/
def parseProgramLoop : Nat → PState → List Stmt → Option (List Stmt × PState)
  | 0, _, _ => none
  | fuel + 1, p, acc =>
    if currTokenIs p .eof then some (acc, p)
    else
      match parseStatement fuel p with
      | none => none
      | some (stmtOpt, p1) =>
        parseProgramLoop fuel (nextTokenP p1)
          (match stmtOpt with | some s => acc ++ [s] | none => acc)

/-- Statement dispatch (src/parser/parser.rs, `parse_statement`). -/
def parseStatement : Nat → PState → Option (Option Stmt × PState)
  | 0, _ => none
  | fuel + 1, p =>
    match p.currToken.tokenType with
    | .letK => parseLetStatement fuel p
    | .returnK => parseReturnStatement fuel p
    | _ => parseExpressionStatement fuel p

/-- The skip-to-semicolon loop shared by `parse_let_statement` and
`parse_return_statement` (src/parser/parser.rs): advance until the
current token is `;`.  The loop does not test for `Eof`. -/
def skipToSemicolon : Nat → PState → Option PState
  | 0, _ => none
  | fuel + 1, p =>
    if currTokenIs p .semicolon then some p
    else skipToSemicolon fuel (nextTokenP p)

/-- Return statement rule (src/parser/parser.rs,
`parse_return_statement`): the statement is built with
`value: Expression::None` — the returned expression is never parsed —
then tokens are skipped up to the next `;`. -/
def parseReturnStatement : Nat → PState → Option (Option Stmt × PState)
  | 0, _ => none
  | fuel + 1, p =>
    let stmt := Stmt.returnS p.currToken Expression.noneE
    match skipToSemicolon fuel p with
    | none => none
    | some p1 => some (some stmt, p1)

/-- Let statement rule (src/parser/parser.rs, `parse_let_statement`):
expects `Ident` then `=`, then skips to the next `;`.  The source
constructs `Statement::Let { name, token }` with the `Ident` token as
the statement token and without the declared `value` field (which does
not compile as written); the value is completed here with
`Expression.noneE`, the placeholder `parse_return_statement` uses. -/
def parseLetStatement : Nat → PState → Option (Option Stmt × PState)
  | 0, _ => none
  | fuel + 1, p =>
    match expectPeek p .ident with
    | (false, p1) => some (none, p1)
    | (true, p1) =>
      let stmt := Stmt.letS p1.currToken ⟨p1.currToken, p1.currToken.literal⟩
        Expression.noneE
      match expectPeek p1 .assign with
      | (false, p2) => some (none, p2)
      | (true, p2) =>
        match skipToSemicolon fuel p2 with
        | none => none
        | some p3 => some (some stmt, p3)

/-- Expression statement rule (src/parser/parser.rs,
`parse_expression_statement`): one expression at `Lowest`, then an
optional trailing `;` is consumed. -/
def parseExpressionStatement : Nat → PState → Option (Option Stmt × PState)
  | 0, _ => none
  | fuel + 1, p =>
    match parseExpressionWPrecedence fuel Precedence.lowest p with
    | none => none
    | some (none, p1) => some (none, p1)
    | some (some e, p1) =>
      let p2 := if peekTokenIs p1 .semicolon then nextTokenP p1 else p1
      some (some (.expression e), p2)

/-- Pratt core (src/parser/parser.rs, `parse_expression_w_precedence`):
a prefix rule builds the initial left expression, then the infix loop
folds it. -/
def parseExpressionWPrecedence :
    Nat → Precedence → PState → Option (Option Expression × PState)
  | 0, _, _ => none
  | fuel + 1, prec, p =>
    match parseExpressionPrefixFn fuel p with
    | none => none
    | some (none, p1) => some (none, p1)
    | some (some left, p1) =>
      match parseExpressionLoop fuel prec left p1 with
      | none => none
      | some (e, p2) => some (some e, p2)

/-- The `while` loop of `parse_expression_w_precedence`
(src/parser/parser.rs): while the peek token is not `;` and binds
strictly tighter than `prec`, advance and fold with the infix rule; a
failed infix rule leaves `left` unchanged and the loop continues. -/
def parseExpressionLoop :
    Nat → Precedence → Expression → PState → Option (Expression × PState)
  | 0, _, _, _ => none
  | fuel + 1, prec, left, p =>
    if !(peekTokenIs p .semicolon) && precLt prec (peekPrecedence p) then
      match parseExpressionInfixFn fuel left (nextTokenP p) with
      | none => none
      | some (some folded, p2) => parseExpressionLoop fuel prec folded p2
      | some (none, p2) => parseExpressionLoop fuel prec left p2
    else some (left, p)

/-- Prefix rule dispatch (src/parser/parser.rs,
`parse_expression_prefix`). -/
def parseExpressionPrefixFn : Nat → PState → Option (Option Expression × PState)
  | 0, _ => none
  | fuel + 1, p =>
    match p.currToken.tokenType with
    | .ident => some (some (parseIdentifierE p), p)
    | .int => some (parseIntegerLiteral p)
    | .plus | .minus | .bang => parsePrefixExpression fuel p
    | .trueK | .falseK => some (parseBooleanExpression p, p)
    | .lparen => parseGroupedExpression fuel p
    | .ifK => parseIfExpression fuel p
    | .function => parseFunctionLiteral fuel p
    | _ => some (none, p)

/-- Infix rule dispatch (src/parser/parser.rs,
`parse_expression_infix`). -/
def parseExpressionInfixFn :
    Nat → Expression → PState → Option (Option Expression × PState)
  | 0, _, _ => none
  | fuel + 1, left, p =>
    match p.currToken.tokenType with
    | .eq | .notEq | .minus | .plus | .asterisk | .slash | .gt | .lt =>
      parseInfixExpression fuel left p
    | .lparen => parseCallExpression fuel left p
    | _ => some (none, p)

/-- Prefix operator rule (src/parser/parser.rs,
`parse_prefix_expression`): the operand is parsed at `Prefix` precedence
and stored as an `Option` — a failed operand parse still yields a
`Prefix` node with an absent operand. -/
def parsePrefixExpression : Nat → PState → Option (Option Expression × PState)
  | 0, _ => none
  | fuel + 1, p =>
    let token := p.currToken
    let operator := p.currToken.literal
    match parseExpressionWPrecedence fuel Precedence.prefixOp (nextTokenP p) with
    | none => none
    | some (rightOpt, p2) => some (some (.prefixE token operator rightOpt), p2)

/-- Infix operator rule (src/parser/parser.rs, `parse_infix_expression`):
the right operand is parsed at the operator's own precedence
(left-associative folding); a failed operand parse fails the rule. -/
def parseInfixExpression :
    Nat → Expression → PState → Option (Option Expression × PState)
  | 0, _, _ => none
  | fuel + 1, left, p =>
    let token := p.currToken
    let operator := p.currToken.literal
    let precedence := currPrecedence p
    match parseExpressionWPrecedence fuel precedence (nextTokenP p) with
    | none => none
    | some (none, p2) => some (none, p2)
    | some (some right, p2) => some (some (.infixE token operator right left), p2)

/-- Grouped expression rule (src/parser/parser.rs,
`parse_grouped_expression`): precedence resets to `Lowest`; a missing
`)` records a diagnostic and fails the rule. -/
def parseGroupedExpression : Nat → PState → Option (Option Expression × PState)
  | 0, _ => none
  | fuel + 1, p =>
    match parseExpressionWPrecedence fuel Precedence.lowest (nextTokenP p) with
    | none => none
    | some (none, p2) => some (none, p2)
    | some (some e, p2) =>
      match expectPeek p2 .rparen with
      | (true, p3) => some (some e, p3)
      | (false, p3) => some (none, p3)

/-- If-expression rule (src/parser/parser.rs, `parse_if_expression`):
`if ( COND ) { BLOCK }`.  The node is always built with
`alternative: None`; no `else` clause is ever parsed. -/
def parseIfExpression : Nat → PState → Option (Option Expression × PState)
  | 0, _ => none
  | fuel + 1, p =>
    let token := p.currToken
    match expectPeek p .lparen with
    | (false, p1) => some (none, p1)
    | (true, p1) =>
      match parseExpressionWPrecedence fuel Precedence.lowest (nextTokenP p1) with
      | none => none
      | some (none, p3) => some (none, p3)
      | some (some condition, p3) =>
        match expectPeek p3 .rparen with
        | (false, p4) => some (none, p4)
        | (true, p4) =>
          match expectPeek p4 .lbrace with
          | (false, p5) => some (none, p5)
          | (true, p5) =>
            match parseBlockStatement fuel p5 with
            | none => none
            | some (consequence, p6) =>
              some (some (.ifE token condition consequence none), p6)

/-- Block rule (src/parser/parser.rs, `parse_block_statement`): the block
token is the current token on entry; statements are parsed until `}` or
`Eof`. -/
def parseBlockStatement : Nat → PState → Option (Stmt × PState)
  | 0, _ => none
  | fuel + 1, p =>
    match parseBlockLoop fuel [] p with
    | none => none
    | some (stmts, p1) => some (.block p.currToken stmts, p1)

/-- The statement loop of `parse_block_statement`
(src/parser/parser.rs): while the current token is neither `}` nor
`Eof`, parse a statement, append it when produced, advance one token. -/
def parseBlockLoop : Nat → List Stmt → PState → Option (List Stmt × PState)
  | 0, _, _ => none
  | fuel + 1, acc, p =>
    if !(currTokenIs p .rbrace) && !(currTokenIs p .eof) then
      match parseStatement fuel p with
      | none => none
      | some (stmtOpt, p1) =>
        parseBlockLoop fuel
          (match stmtOpt with | some s => acc ++ [s] | none => acc)
          (nextTokenP p1)
    else some (acc, p)

/-- Function literal rule (src/parser/parser.rs,
`parse_function_literal`). -/
def parseFunctionLiteral : Nat → PState → Option (Option Expression × PState)
  | 0, _ => none
  | fuel + 1, p =>
    let token := p.currToken
    match expectPeek p .lparen with
    | (false, p1) => some (none, p1)
    | (true, p1) =>
      match parseFunctionParameters fuel p1 with
      | none => none
      | some (none, p2) => some (none, p2)
      | some (some parameters, p2) =>
        match expectPeek p2 .lbrace with
        | (false, p3) => some (none, p3)
        | (true, p3) =>
          match parseBlockStatement fuel p3 with
          | none => none
          | some (body, p4) =>
            some (some (.function token parameters body), p4)

/-- Parameter list rule (src/parser/parser.rs,
`parse_function_parameters`). -/
def parseFunctionParameters :
    Nat → PState → Option (Option (List Identifier) × PState)
  | 0, _ => none
  | fuel + 1, p =>
    if peekTokenIs p .rparen then some (some [], nextTokenP p)
    else
      let p1 := nextTokenP p
      match parseFunctionParamsLoop fuel
          [⟨p1.currToken, p1.currToken.literal⟩] p1 with
      | none => none
      | some (ids, p2) =>
        match expectPeek p2 .rparen with
        | (false, p3) => some (none, p3)
        | (true, p3) => some (some ids, p3)

/-- The comma loop of `parse_function_parameters`
(src/parser/parser.rs): while the peek token is `,`, advance twice and
append the identifier at the current token. -/
def parseFunctionParamsLoop :
    Nat → List Identifier → PState → Option (List Identifier × PState)
  | 0, _, _ => none
  | fuel + 1, acc, p =>
    if peekTokenIs p .comma then
      let p1 := nextTokenP (nextTokenP p)
      parseFunctionParamsLoop fuel
        (acc ++ [⟨p1.currToken, p1.currToken.literal⟩]) p1
    else some (acc, p)

/-- Call expression rule (src/parser/parser.rs,
`parse_call_expression`): the argument list `Option` is stored in the
node as is. -/
def parseCallExpression :
    Nat → Expression → PState → Option (Option Expression × PState)
  | 0, _, _ => none
  | fuel + 1, left, p =>
    let token := p.currToken
    match parseCallArguments fuel p with
    | none => none
    | some (argumentsOpt, p1) => some (some (.call token left argumentsOpt), p1)

/-- Argument list rule (src/parser/parser.rs, `parse_call_arguments`):
an empty argument list returns `None` (as the source does), and a failed
argument parse propagates as `None`. -/
def parseCallArguments :
    Nat → PState → Option (Option (List Expression) × PState)
  | 0, _ => none
  | fuel + 1, p =>
    if peekTokenIs p .rparen then some (none, nextTokenP p)
    else
      match parseExpressionWPrecedence fuel Precedence.lowest (nextTokenP p) with
      | none => none
      | some (none, p2) => some (none, p2)
      | some (some a, p2) =>
        match parseCallArgsLoop fuel [a] p2 with
        | none => none
        | some (none, p3) => some (none, p3)
        | some (some args, p3) =>
          match expectPeek p3 .rparen with
          | (false, p4) => some (none, p4)
          | (true, p4) => some (some args, p4)

/-- The comma loop of `parse_call_arguments` (src/parser/parser.rs):
while the peek token is `,`, advance twice and parse the next argument
at `Lowest`. -/
def parseCallArgsLoop :
    Nat → List Expression → PState → Option (Option (List Expression) × PState)
  | 0, _, _ => none
  | fuel + 1, acc, p =>
    if peekTokenIs p .comma then
      match parseExpressionWPrecedence fuel Precedence.lowest
          (nextTokenP (nextTokenP p)) with
      | none => none
      | some (none, p2) => some (none, p2)
      | some (some a, p2) => parseCallArgsLoop fuel (acc ++ [a]) p2
    else some (some acc, p)
end

/-- Whole-program parse (src/parser/parser.rs, `parse_program`), which
always returns `Some(program)` in the source; the outer `Option` is
fuel exhaustion, i.e. divergence of the Rust loops. -/
def parseProgram (fuel : Nat) (p : PState) : Option (Option Program × PState) :=
  match parseProgramLoop fuel p [] with
  | none => none
  | some (stmts, p1) => some (some ⟨stmts⟩, p1)

/-- Lex and parse a source string: `Lexer::new`, `Parser::new`,
`parse_program`. -/
def parseProgramStr (fuel : Nat) (input : String) :
    Option (Option Program × PState) :=
  parseProgram fuel (newParser input)

/-- The full pipeline of the evaluator tests (src/eval/tests.rs): lex,
parse, then `eval_program` on the parsed program.  `none` means the
parser ran out of fuel or produced no program. -/
def runProgram (fuel : Nat) (input : String) : Option EvalRes :=
  match parseProgramStr fuel input with
  | some (some program, _) => some (evalProgram program)
  | _ => none

/-- Test whether both operands are `Int` values: the only operand pairing
`eval_infix_expression` defines. -/
def bothInt : Object → Object → Bool
  | .int _, .int _ => true
  | _, _ => false

/-- The characters the lexer maps directly to operator or delimiter
tokens (the explicit character arms of `next_token`). -/
def isOperatorChar (c : Char) : Bool :=
  c == '=' || c == '\x7b' || c == '\x7d' || c == '+' || c == '-' ||
  c == '<' || c == '>' || c == '!' || c == '*' || c == '/' ||
  c == ',' || c == ';' || c == '(' || c == ')'

mutual
/-- The evaluated subset of expressions named by the spec: integer and
boolean literals, `!` and `-` prefix with a present operand, the eight
integer infix operators, and if/else over subset parts. -/
def subsetExpr : Expression → Bool
  | .integer _ _ => true
  | .boolean _ _ => true
  | .prefixE _ operator right =>
    (operator == "!" || operator == "-") &&
    (match right with | some r => subsetExpr r | none => false)
  | .infixE _ operator right left =>
    (operator == "+" || operator == "-" || operator == "*" ||
     operator == "/" || operator == "<" || operator == ">" ||
     operator == "==" || operator == "!=") &&
    subsetExpr right && subsetExpr left
  | .ifE _ condition consequence alternative =>
    subsetExpr condition && subsetStmt consequence &&
    (match alternative with | some a => subsetStmt a | none => true)
  | .function _ _ _ => false
  | .call _ _ _ => false
  | .identifierE _ => false
  | .noneE => false
/-- The evaluated subset of statements: blocks, return and expression
statements over subset expressions (`let` is outside the subset). -/
def subsetStmt : Stmt → Bool
  | .letS _ _ _ => false
  | .returnS _ value => subsetExpr value
  | .block _ statements => subsetStmtList statements
  | .expression e => subsetExpr e
/-- Subset test for every statement of a list. -/
def subsetStmtList : List Stmt → Bool
  | [] => true
  | s :: rest => subsetStmt s && subsetStmtList rest
end

mutual
/-- Absence of the integer arithmetic operators — infix `+`, `-`, `*`,
`/` and prefix `-` — anywhere in an expression.  These are exactly the
operations of the evaluated subset that can panic (division by zero,
`i64::MIN / -1`, or, in the unoptimized profile, `i64` overflow). -/
def noArithExpr : Expression → Bool
  | .integer _ _ => true
  | .boolean _ _ => true
  | .prefixE _ operator right =>
    !(operator == "-") &&
    (match right with | some r => noArithExpr r | none => true)
  | .infixE _ operator right left =>
    !(operator == "+") && !(operator == "-") && !(operator == "*") &&
    !(operator == "/") && noArithExpr right && noArithExpr left
  | .ifE _ condition consequence alternative =>
    noArithExpr condition && noArithStmt consequence &&
    (match alternative with | some a => noArithStmt a | none => true)
  | .function _ _ body => noArithStmt body
  | .call _ fnExpr arguments =>
    noArithExpr fnExpr &&
    (match arguments with | some args => noArithExprList args | none => true)
  | .identifierE _ => true
  | .noneE => true
/-- Absence of the integer arithmetic operators anywhere in a
statement. -/
def noArithStmt : Stmt → Bool
  | .letS _ _ value => noArithExpr value
  | .returnS _ value => noArithExpr value
  | .block _ statements => noArithStmtList statements
  | .expression e => noArithExpr e
/-- `noArithExpr` over every expression of a list. -/
def noArithExprList : List Expression → Bool
  | [] => true
  | e :: rest => noArithExpr e && noArithExprList rest
/-- `noArithStmt` over every statement of a list. -/
def noArithStmtList : List Stmt → Bool
  | [] => true
  | s :: rest => noArithStmt s && noArithStmtList rest
end

/-- The integer infix table panics only in its arithmetic arms: for an
operator other than `+`, `-`, `*`, `/` (i.e. a comparison or an
unrecognized operator) it never panics. -/
theorem evalIntegerInfixOperation_ne_panics (operator : String) (l r : Int)
    (hp : operator ≠ "+") (hm : operator ≠ "-") (ht : operator ≠ "*")
    (hs : operator ≠ "/") : evalIntegerInfixOperation operator l r ≠ EvalRes.panics := by
  simp only [evalIntegerInfixOperation]
  split_ifs <;> simp_all

/-- Infix dispatch panics only through the arithmetic arms of the
integer table. -/
theorem evalInfixExpression_ne_panics (operator : String) (lt rt : Object)
    (hp : operator ≠ "+") (hm : operator ≠ "-") (ht : operator ≠ "*")
    (hs : operator ≠ "/") : evalInfixExpression operator lt rt ≠ EvalRes.panics := by
  cases lt <;> cases rt <;>
    first
      | exact evalIntegerInfixOperation_ne_panics operator _ _ hp hm ht hs
      | simp [evalInfixExpression]

/-- The `!` prefix dispatch never panics. -/
theorem evalPrefixExpressionBang_ne_panics (rt : Object) :
    evalPrefixExpression "!" rt ≠ EvalRes.panics := by
  simp [evalPrefixExpression]

/-- Exact panic characterization of the integer infix table: it panics
precisely on overflowing `+`, `-`, `*` (the unoptimized-profile aborts)
and on `/` with a zero divisor or `i64::MIN / -1`. -/
theorem evalIntegerInfixOperation_panics_iff (operator : String) (l r : Int) :
    evalIntegerInfixOperation operator l r = EvalRes.panics ↔
      ((operator = "+" ∧ inI64Range (l + r) = false) ∨
       (operator = "-" ∧ inI64Range (l - r) = false) ∨
       (operator = "*" ∧ inI64Range (l * r) = false) ∨
       (operator = "/" ∧ (r = 0 ∨ (l = i64Min ∧ r = -1)))) := by
  simp only [evalIntegerInfixOperation]
  split_ifs <;> simp_all

mutual
/-- Subset expressions containing no arithmetic operator evaluate
without panicking. -/
theorem noPanicExpr (e : Expression) (h1 : subsetExpr e = true)
    (h2 : noArithExpr e = true) : evalExpr e ≠ EvalRes.panics := by
  cases e with
  | integer t v => simp [evalExpr]
  | boolean t v => simp [evalExpr]
  | prefixE t operator right =>
    cases right with
    | none => simp [subsetExpr] at h1
    | some r =>
      simp only [subsetExpr, Bool.and_eq_true] at h1
      simp only [noArithExpr, Bool.and_eq_true] at h2
      have ih := noPanicExpr r h1.2 h2.2
      have hnm : operator ≠ "-" := by simpa using h2.1
      have hor : operator = "!" ∨ operator = "-" := by simpa using h1.1
      have hbang : operator = "!" := hor.resolve_right hnm
      simp only [evalExpr]
      cases hr : evalExpr r with
      | panics => exact absurd hr ih
      | noRes => simp
      | res rt =>
        subst hbang
        exact evalPrefixExpressionBang_ne_panics rt
  | infixE t operator right left =>
    simp only [subsetExpr, Bool.and_eq_true] at h1
    simp only [noArithExpr, Bool.and_eq_true] at h2
    have ihl := noPanicExpr left h1.2 h2.2
    have ihr := noPanicExpr right h1.1.2 h2.1.2
    have hp : operator ≠ "+" := by simpa using h2.1.1.1.1.1
    have hm : operator ≠ "-" := by simpa using h2.1.1.1.1.2
    have htm : operator ≠ "*" := by simpa using h2.1.1.1.2
    have hsl : operator ≠ "/" := by simpa using h2.1.1.2
    simp only [evalExpr]
    cases hl : evalExpr left with
    | panics => exact absurd hl ihl
    | noRes => simp
    | res lt =>
      cases hrr : evalExpr right with
      | panics => exact absurd hrr ihr
      | noRes => simp
      | res rt => exact evalInfixExpression_ne_panics operator lt rt hp hm htm hsl
  | ifE t condition consequence alternative =>
    cases alternative with
    | none =>
      simp only [subsetExpr, Bool.and_eq_true] at h1
      simp only [noArithExpr, Bool.and_eq_true] at h2
      have ihc := noPanicExpr condition h1.1.1 h2.1.1
      have ihs := noPanicStmt consequence h1.1.2 h2.1.2
      simp only [evalExpr]
      cases hc : evalExpr condition with
      | panics => exact absurd hc ihc
      | noRes => simp
      | res c =>
        cases ht : isTruthy c with
        | true => simpa [ht] using ihs
        | false => simp [ht]
    | some a =>
      simp only [subsetExpr, Bool.and_eq_true] at h1
      simp only [noArithExpr, Bool.and_eq_true] at h2
      have ihc := noPanicExpr condition h1.1.1 h2.1.1
      have ihs := noPanicStmt consequence h1.1.2 h2.1.2
      have iha := noPanicStmt a h1.2 h2.2
      simp only [evalExpr]
      cases hc : evalExpr condition with
      | panics => exact absurd hc ihc
      | noRes => simp
      | res c =>
        cases ht : isTruthy c with
        | true => simpa [ht] using ihs
        | false => simpa [ht] using iha
  | function t params body => simp [subsetExpr] at h1
  | call t fnExpr args => simp [subsetExpr] at h1
  | identifierE i => simp [subsetExpr] at h1
  | noneE => simp [subsetExpr] at h1
/-- Subset statements containing no arithmetic operator evaluate
without panicking. -/
theorem noPanicStmt (s : Stmt) (h1 : subsetStmt s = true)
    (h2 : noArithStmt s = true) : eval s ≠ EvalRes.panics := by
  cases s with
  | letS t n v => simp [subsetStmt] at h1
  | returnS t value =>
    simp only [subsetStmt] at h1
    simp only [noArithStmt] at h2
    have ih := noPanicExpr value h1 h2
    simp only [eval]
    cases hv : evalExpr value with
    | panics => exact absurd hv ih
    | noRes => simp
    | res o => simp
  | block t statements =>
    simp only [subsetStmt] at h1
    simp only [noArithStmt] at h2
    simp only [eval]
    exact noPanicBlock statements h1 h2 Object.null
  | expression e =>
    simp only [subsetStmt] at h1
    simp only [noArithStmt] at h2
    simp only [eval]
    exact noPanicExpr e h1 h2
/-- Block evaluation of arithmetic-free subset statements never panics,
whatever the accumulated result. -/
theorem noPanicBlock (l : List Stmt) (h1 : subsetStmtList l = true)
    (h2 : noArithStmtList l = true) :
    ∀ acc, evalBlockStatement l acc ≠ EvalRes.panics := by
  cases l with
  | nil => intro acc; simp [evalBlockStatement]
  | cons s rest =>
    intro acc
    simp only [subsetStmtList, Bool.and_eq_true] at h1
    simp only [noArithStmtList, Bool.and_eq_true] at h2
    simp only [evalBlockStatement]
    cases hs : eval s with
    | panics => exact absurd hs (noPanicStmt s h1.1 h2.1)
    | noRes => exact noPanicBlock rest h1.2 h2.2 acc
    | res o =>
      cases o with
      | int i => exact noPanicBlock rest h1.2 h2.2 _
      | bool b => exact noPanicBlock rest h1.2 h2.2 _
      | null => exact noPanicBlock rest h1.2 h2.2 _
      | returnValue v => simp
end

/-- A block whose statements all fail to produce a result yields the
accumulated value unchanged. -/
theorem evalBlock_all_noRes (stmts : List Stmt)
    (h : ∀ s ∈ stmts, eval s = EvalRes.noRes) :
    ∀ acc, evalBlockStatement stmts acc = EvalRes.res acc := by
  induction stmts with
  | nil => intro acc; rfl
  | cons s rest ih =>
    intro acc
    simp only [evalBlockStatement]
    rw [h s (List.mem_cons_self s rest)]
    exact ih (fun t ht => h t (List.mem_cons_of_mem s ht)) acc

/-- The skip-to-semicolon loop never terminates once the lexer input is
exhausted and neither lookahead token is a semicolon: every advance
yields `Eof`, which is never `;`. -/
theorem skipToSemicolon_stuck (n : Nat) :
    ∀ p : PState, p.lexer = [] → p.currToken.tokenType ≠ TokenType.semicolon →
      p.peekToken.tokenType ≠ TokenType.semicolon → skipToSemicolon n p = none := by
  induction n with
  | zero => intro p _ _ _; rfl
  | succ m ih =>
    intro p hlex hc hp
    have hcc : currTokenIs p .semicolon = false := by
      simp [currTokenIs, hc]
    have hnt : nextToken p.lexer = (⟨.eof, ""⟩, []) := by rw [hlex]; rfl
    simp only [skipToSemicolon, hcc, Bool.false_eq_true, if_false]
    exact ih (nextTokenP p)
      (by simp [nextTokenP, hnt])
      (by simpa [nextTokenP] using hp)
      (by simp [nextTokenP, hnt])

/-- Claim C1: evaluating
`if (10 > 1) { if (10 > 1) { return 10; } 129; return 1; }` through the
full pipeline (lex, parse_program, eval_program).  The claim and the
repository's own tests expect `Integer 10`; the code instead panics,
because `parse_return_statement` discards the returned expression
(`value: Expression::None`) and `eval` of `Expression::None` is
`Some(todo!())`. -/
theorem c1_nested_return_program_panics :
    runProgram 99
      "if (10 > 1) \x7b if (10 > 1) \x7b return 10; \x7d 129; return 1; \x7d"
      = some EvalRes.panics := rfl

/-- Claim C2, as stated, is false: `eval_program` does not unwrap a
propagating `ReturnValue`.  The one-statement program `return 10;`
(as an AST, since source-level `return` panics) makes `eval_program`
yield the still-wrapped `ReturnValue(Some(Integer 10))`. -/
theorem c2_counterexample :
    evalProgram ⟨[Stmt.returnS ⟨.returnK, "return"⟩ (.integer ⟨.int, "10"⟩ 10)]⟩
      = EvalRes.res (.returnValue (some (.int 10))) := rfl

/-- Claim C2 (amended): when a statement's result is a `ReturnValue`,
`eval_program` returns that `ReturnValue` unchanged — still wrapped —
ignoring the trailing statements; the unwrapping happens only in the
`Display` rendering of `Object`, which renders a wrapped value as the
value itself. -/
theorem c2_return_value_reaches_program_wrapped :
    ∀ (s : Stmt) (rest : List Stmt) (v : Option Object),
      eval s = EvalRes.res (.returnValue v) →
      evalProgram ⟨s :: rest⟩ = EvalRes.res (.returnValue v) ∧
      ∀ o, displayObject (.returnValue (some o)) = displayObject o := by
  intro s rest v h
  constructor
  · simp only [evalProgram, evalProgramLoop]
    rw [h]
  · intro o; rfl

/-- Witness for C2 at the program `[return 10; 1]` built as an AST. -/
theorem c2_witness :
    eval (Stmt.returnS ⟨.returnK, "return"⟩ (.integer ⟨.int, "10"⟩ 10)) =
      EvalRes.res (.returnValue (some (.int 10))) ∧
    evalProgram ⟨[Stmt.returnS ⟨.returnK, "return"⟩ (.integer ⟨.int, "10"⟩ 10),
      Stmt.expression (.integer ⟨.int, "1"⟩ 1)]⟩ =
      EvalRes.res (.returnValue (some (.int 10))) :=
  ⟨rfl, (c2_return_value_reaches_program_wrapped
      (Stmt.returnS ⟨.returnK, "return"⟩ (.integer ⟨.int, "10"⟩ 10))
      [Stmt.expression (.integer ⟨.int, "1"⟩ 1)] (some (.int 10)) rfl).1⟩

/-- Claim C3, as stated, is false: the subset AST `1 / 0` panics (Rust
integer division by zero), so evaluation is not panic-free "for any
operand values"; end to end, `runProgram "1 / 0"` panics too. -/
theorem c3_counterexample :
    subsetStmt (Stmt.expression (.infixE ⟨.slash, "/"⟩ "/"
      (.integer ⟨.int, "0"⟩ 0) (.integer ⟨.int, "1"⟩ 1))) = true ∧
    eval (Stmt.expression (.infixE ⟨.slash, "/"⟩ "/"
      (.integer ⟨.int, "0"⟩ 0) (.integer ⟨.int, "1"⟩ 1))) = EvalRes.panics ∧
    runProgram 99 "1 / 0" = some EvalRes.panics :=
  ⟨rfl, rfl, rfl⟩

/-- Claim C3 (amended): a type mismatch (operand pair that is not two
integers) always yields the absent result, never a panic; the integer
infix table panics exactly on overflowing `+`, `-`, `*` (aborts of the
unoptimized profile the repository's tests run under) and on `/` with a
zero divisor or `i64::MIN / -1`; and a subset AST evaluates without
panicking provided it contains no arithmetic operator (infix `+`, `-`,
`*`, `/` or prefix `-`).  Panic-freedom does not extend to all operand
values. -/
theorem c3_no_panic_without_arithmetic :
    (∀ operator lt rt, bothInt lt rt = false →
      evalInfixExpression operator lt rt = EvalRes.noRes) ∧
    (∀ operator l r, evalIntegerInfixOperation operator l r = EvalRes.panics ↔
      ((operator = "+" ∧ inI64Range (l + r) = false) ∨
       (operator = "-" ∧ inI64Range (l - r) = false) ∨
       (operator = "*" ∧ inI64Range (l * r) = false) ∨
       (operator = "/" ∧ (r = 0 ∨ (l = i64Min ∧ r = -1))))) ∧
    (∀ s, subsetStmt s = true → noArithStmt s = true → eval s ≠ EvalRes.panics) := by
  refine ⟨?_, ?_, ?_⟩
  · intro operator lt rt h
    cases lt <;> cases rt <;> simp_all [bothInt, evalInfixExpression]
  · exact evalIntegerInfixOperation_panics_iff
  · exact fun s h1 h2 => noPanicStmt s h1 h2

/-- Witness for C3: the mismatched pair `(true, 1)` yields the absent
result; `i64::MAX + 1` panics by the characterization; the comparison
statement `1 < 2` is an arithmetic-free subset statement and does not
panic. -/
theorem c3_witness :
    bothInt (.bool true) (.int 1) = false ∧
    evalInfixExpression "+" (.bool true) (.int 1) = EvalRes.noRes ∧
    evalIntegerInfixOperation "+" i64Max 1 = EvalRes.panics ∧
    subsetStmt (Stmt.expression (.infixE ⟨.lt, "<"⟩ "<"
      (.integer ⟨.int, "2"⟩ 2) (.integer ⟨.int, "1"⟩ 1))) = true ∧
    noArithStmt (Stmt.expression (.infixE ⟨.lt, "<"⟩ "<"
      (.integer ⟨.int, "2"⟩ 2) (.integer ⟨.int, "1"⟩ 1))) = true ∧
    eval (Stmt.expression (.infixE ⟨.lt, "<"⟩ "<"
      (.integer ⟨.int, "2"⟩ 2) (.integer ⟨.int, "1"⟩ 1))) ≠ EvalRes.panics :=
  ⟨rfl, c3_no_panic_without_arithmetic.1 "+" (.bool true) (.int 1) rfl,
    (c3_no_panic_without_arithmetic.2.1 "+" i64Max 1).mpr
      (Or.inl ⟨rfl, by decide⟩),
    rfl, rfl,
    c3_no_panic_without_arithmetic.2.2 _ rfl rfl⟩

/-- Claim C4: `parse_program` terminates on every finite token stream.
The claim and the spec's forward-progress argument are the intent, but
the skip-to-semicolon loops of `parse_let_statement` and
`parse_return_statement` never test for `Eof`: on the input `return 5`
(no semicolon before end of input) the lexer yields `Eof` forever and
the loop never exits — the parse runs out of any amount of fuel. -/
theorem c4_return_no_semicolon_diverges :
    ∀ fuel, parseProgramStr fuel "return 5" = none := by
  intro fuel
  have hp : newParser "return 5" =
      ⟨[], ⟨.returnK, "return"⟩, ⟨.int, "5"⟩, []⟩ := rfl
  match fuel with
  | 0 => rfl
  | 1 => rfl
  | 2 => rfl
  | (m + 3) =>
    have hsk : skipToSemicolon m ⟨[], ⟨.returnK, "return"⟩, ⟨.int, "5"⟩, []⟩
        = none :=
      skipToSemicolon_stuck m _ rfl (by simp) (by simp)
    simp only [parseProgramStr, parseProgram, hp, parseProgramLoop,
      parseStatement, parseReturnStatement, currTokenIs, hsk]
    rfl

/-- Claim C5, as stated, is false in its parser part: parsing
`if (1 > 2) { 10 } else { 20 }` yields a two-statement program whose
`If` node has `alternative = none` — `parse_if_expression` never parses
an `else` clause; the `else` and brace tokens fail statement parsing
silently and `20` becomes a separate top-level statement. -/
theorem c5_counterexample :
    (parseProgramStr 99 "if (1 > 2) \x7b 10 \x7d else \x7b 20 \x7d").map
        (fun x => x.1) =
      some (some ⟨[Stmt.expression (.ifE ⟨.ifK, "if"⟩
          (.infixE ⟨.gt, ">"⟩ ">" (.integer ⟨.int, "2"⟩ 2) (.integer ⟨.int, "1"⟩ 1))
          (.block ⟨.lbrace, "\x7b"⟩ [Stmt.expression (.integer ⟨.int, "10"⟩ 10)])
          none),
        Stmt.expression (.integer ⟨.int, "20"⟩ 20)]⟩) := rfl

/-- Claim C5 (amended): the two evaluation results hold as stated —
`if (1 > 2) { 10 }` yields Null and `if (1 > 2) { 10 } else { 20 }`
yields Integer 20 — but not through an else clause: the parser always
builds the `If` with an absent alternative (a false condition with no
alternative gives an absent result, turned into Null by `eval_program`),
and the `20` comes from the else-block contents parsed as trailing
top-level statements whose value becomes the program result. -/
theorem c5_if_else_evaluation_results :
    runProgram 99 "if (1 > 2) \x7b 10 \x7d" = some (EvalRes.res .null) ∧
    runProgram 99 "if (1 > 2) \x7b 10 \x7d else \x7b 20 \x7d" =
      some (EvalRes.res (.int 20)) :=
  ⟨rfl, rfl⟩

/-- Claim C6: printing the AST parsed from `5 * 5 * 2 + 10 * 5 - 2;`
yields `((((5 * 5) * 2) + (10 * 5)) - 2)` (left-associative folding of
equal precedences, tighter grouping of higher binding powers), and
printing the AST parsed from `(5 + 5) * 2` yields `((5 + 5) * 2)`
(grouping overrides precedence). -/
theorem c6_precedence_printing :
    (parseProgramStr 99 "5 * 5 * 2 + 10 * 5 - 2;").map
        (fun x => x.1.map printProgram) =
      some (some ["((((5 * 5) * 2) + (10 * 5)) - 2)"]) ∧
    (parseProgramStr 99 "(5 + 5) * 2").map (fun x => x.1.map printProgram) =
      some (some ["((5 + 5) * 2)"]) :=
  ⟨rfl, rfl⟩

/-- Claim C7: the claim (and the repository's own printer tests) expect
`return 5;` and `let x = 5;` to round-trip; instead, parsing `return 5;`
prints `return ;` because `parse_return_statement` discards the returned
expression, and parsing `let x = 5;` prints `x x = ;` because
`parse_let_statement` uses the identifier token as the statement token
(and never parses the value). -/
theorem c7_let_return_print_divergence :
    (parseProgramStr 99 "return 5;").map (fun x => x.1.map printProgram) =
      some (some ["return ;"]) ∧
    (parseProgramStr 99 "let x = 5;").map (fun x => x.1.map printProgram) =
      some (some ["x x = ;"]) :=
  ⟨rfl, rfl⟩

/-- Claim C8: the `!` prefix rule is truthiness negation — `Boolean b`
evaluates to `Boolean (!b)`, every `Integer` to `Boolean false`, `Null`
to `Boolean true` — and end to end `!true` is false, `!5` is false and
`!!5` is true (double negation of a truthy non-boolean yields
`Boolean true`, not the original value). -/
theorem c8_bang_truthiness :
    (∀ b, evalBangOperatorExpression (.bool b) = .bool (!b)) ∧
    (∀ i, evalBangOperatorExpression (.int i) = .bool false) ∧
    evalBangOperatorExpression .null = .bool true ∧
    runProgram 99 "!true" = some (EvalRes.res (.bool false)) ∧
    runProgram 99 "!5" = some (EvalRes.res (.bool false)) ∧
    runProgram 99 "!!5" = some (EvalRes.res (.bool true)) :=
  ⟨fun _ => rfl, fun _ => rfl, rfl, rfl, rfl, rfl⟩

/-- Claim C9, as stated, is false: lexing the unrecognized character `@`
does produce an `Illegal` token, but its literal is the fixed string
"Illegal", not the offending character. -/
theorem c9_counterexample :
    nextToken ['@'] = (⟨.illegal, "Illegal"⟩, []) ∧
    (nextToken ['@']).1.literal ≠ "@" :=
  ⟨rfl, by decide⟩

/-- Claim C9 (amended): every ASCII character that is not whitespace,
not an operator/delimiter character, not an identifier start and not a
digit lexes to an `Illegal` token whose literal is the fixed string
"Illegal", and the lexer consumes exactly that character and continues
with the rest of the input.  The ASCII bound scopes the statement to
the characters on which the modelled classes coincide with Rust's
Unicode `char::is_whitespace` / `char::is_alphabetic` /
`char::is_alphanumeric`. -/
theorem c9_illegal_fixed_literal :
    ∀ (c : Char) (rest : List Char), c.toNat < 128 →
      isWhitespaceChar c = false →
      isOperatorChar c = false → (isAlphabeticChar c || c == '_') = false →
      isAsciiDigitChar c = false →
      nextToken (c :: rest) = (⟨.illegal, "Illegal"⟩, rest) := by
  intro c rest _hascii h1 h2 h3 h4
  simp only [isOperatorChar, Bool.or_eq_false_iff] at h2
  obtain ⟨⟨⟨⟨⟨⟨⟨⟨⟨⟨⟨⟨⟨he, hlb⟩, hrb⟩, hplus⟩, hminus⟩, hlt2⟩, hgt2⟩,
    hbang⟩, hstar⟩, hslash2⟩, hcomma⟩, hsemi⟩, hlp⟩, hrp⟩ := h2
  simp [nextToken, List.dropWhile_cons, h1, he, hlb, hrb, hplus, hminus,
    hlt2, hgt2, hbang, hstar, hslash2, hcomma, hsemi, hlp, hrp, h3, h4]

/-- Witness for C9 at the character `@` followed by `5`: the illegal
token is emitted and the next call scans the `5` as an `Int` token. -/
theorem c9_witness :
    Char.toNat '@' < 128 ∧
    isWhitespaceChar '@' = false ∧ isOperatorChar '@' = false ∧
    (isAlphabeticChar '@' || '@' == '_') = false ∧
    isAsciiDigitChar '@' = false ∧
    nextToken ['@', '5'] = (⟨.illegal, "Illegal"⟩, ['5']) ∧
    nextToken ['5'] = (⟨.int, "5"⟩, []) :=
  ⟨by decide, rfl, rfl, rfl, rfl,
    c9_illegal_fixed_literal '@' ['5'] (by decide) rfl rfl rfl rfl, rfl⟩

/-- Claim C10: in a block, a statement with an absent result is skipped
without clearing the running result; a produced non-return value
replaces it; an exhausted block yields the accumulated value (`Null`
when nothing ever produced one, since the accumulator starts at `Null`
and `eval` of a block starts it there). -/
theorem c10_block_result_threading :
    (∀ s rest acc, eval s = EvalRes.noRes →
      evalBlockStatement (s :: rest) acc = evalBlockStatement rest acc) ∧
    (∀ s rest acc o, eval s = EvalRes.res o → (∀ v, o ≠ Object.returnValue v) →
      evalBlockStatement (s :: rest) acc = evalBlockStatement rest o) ∧
    (∀ acc, evalBlockStatement [] acc = EvalRes.res acc) ∧
    (∀ tok stmts, (∀ s ∈ stmts, eval s = EvalRes.noRes) →
      eval (Stmt.block tok stmts) = EvalRes.res Object.null) := by
  refine ⟨?_, ?_, ?_, ?_⟩
  · intro s rest acc h
    simp only [evalBlockStatement]
    rw [h]
  · intro s rest acc o h hnr
    simp only [evalBlockStatement]
    rw [h]
    cases o with
    | int i => rfl
    | bool b => rfl
    | null => rfl
    | returnValue v => exact absurd rfl (hnr v)
  · intro acc; rfl
  · intro tok stmts h
    simp only [eval]
    exact evalBlock_all_noRes stmts h Object.null

/-- Witness for C10: a failing statement (`1 + true` type mismatch) is
skipped keeping the accumulator `7`; the literal statement `5` replaces
the accumulator; the empty block yields the accumulator; a block of only
failing statements yields Null. -/
theorem c10_witness :
    evalBlockStatement
        [Stmt.expression (.infixE ⟨.plus, "+"⟩ "+"
          (.integer ⟨.int, "1"⟩ 1) (.boolean ⟨.trueK, "true"⟩ true))]
        (.int 7) = evalBlockStatement [] (.int 7) ∧
    evalBlockStatement [Stmt.expression (.integer ⟨.int, "5"⟩ 5)] .null =
      evalBlockStatement [] (.int 5) ∧
    evalBlockStatement [] (Object.int 5) = EvalRes.res (.int 5) ∧
    eval (Stmt.block ⟨.lbrace, "\x7b"⟩
        [Stmt.expression (.infixE ⟨.plus, "+"⟩ "+"
          (.integer ⟨.int, "1"⟩ 1) (.boolean ⟨.trueK, "true"⟩ true))]) =
      EvalRes.res Object.null :=
  ⟨c10_block_result_threading.1 _ [] (.int 7) rfl,
    c10_block_result_threading.2.1 _ [] .null (.int 5) rfl
      (fun v h => Object.noConfusion h),
    c10_block_result_threading.2.2.1 (.int 5),
    c10_block_result_threading.2.2.2 ⟨.lbrace, "\x7b"⟩ _
      (by intro s hs; rw [List.mem_singleton] at hs; subst hs; rfl)⟩
